import Mathlib

/-!
Verification of the veessh connection manager core: profile inheritance
resolution (internal/config/config.go), the connector registry and
command-argument synthesis (internal/connectors), and credential backend
selection (internal/credentials). Go maps are embedded as association
lists, the recursive inheritance resolver as a fuel-indexed function
(the fuel is shown sufficient), and external effects (keyring, 1Password
CLI, file system) as explicit oracle arguments.
-/

namespace Veessh

/-- Connection profile, after `config.Profile` (config.go). `Extends` is a
Lean keyword, so the inheritance pointer field is named `extendsName`.
`LastUsed` (a `time.Time`) is embedded as an abstract timestamp. -/
structure Profile where
  name            : String := ""
  protocol        : String := ""
  host            : String := ""
  port            : Int := 0
  username        : String := ""
  identityFile    : String := ""
  useAgent        : Bool := false
  extraArgs       : List String := []
  group           : String := ""
  description     : String := ""
  favorite        : Bool := false
  lastUsed        : Nat := 0
  useCount        : Int := 0
  proxyJump       : String := ""
  tags            : List String := []
  localForwards   : List String := []
  remoteForwards  : List String := []
  dynamicForwards : List String := []
  remoteCommand   : String := ""
  remoteDir       : String := ""
  setEnv          : List String := []
  awsRegion       : String := ""
  awsProfile      : String := ""
  instanceID      : String := ""
  moshServer      : String := ""
  gcpProject      : String := ""
  gcpZone         : String := ""
  gcpUseTunnel    : Bool := false
  extendsName     : String := ""
  deriving DecidableEq, Repr

/-- `config.Config`: the profile map, embedded as an association list from
profile-map key to profile (Go map iteration order is irrelevant here:
only keyed lookup is used by the resolver). -/
structure Config where
  profiles : List (String × Profile)
  deriving DecidableEq, Repr

/-- Keyed lookup in an association list: the embedding of a Go map read
`m[k]`. First binding wins (Go maps have unique keys). -/
def lookupAssoc {β : Type} : List (String × β) → String → Option β
  | [], _ => none
  | (k, v) :: rest, key => if k = key then some v else lookupAssoc rest key

/-- Field-by-field merge of a child profile `p` over a resolved parent,
after the body of `resolveInheritance` (config.go:183-267): strings and the
port override only when non-zero, slices replace wholesale only when
non-empty, booleans and usage stats always take the child's value, the
name is always the child's and `extends` is cleared. -/
def mergeProfiles (parent p : Profile) : Profile :=
  { parent with
    name := p.name
    extendsName := ""
    protocol := if p.protocol ≠ "" then p.protocol else parent.protocol
    host := if p.host ≠ "" then p.host else parent.host
    port := if p.port ≠ 0 then p.port else parent.port
    username := if p.username ≠ "" then p.username else parent.username
    identityFile := if p.identityFile ≠ "" then p.identityFile else parent.identityFile
    group := if p.group ≠ "" then p.group else parent.group
    description := if p.description ≠ "" then p.description else parent.description
    proxyJump := if p.proxyJump ≠ "" then p.proxyJump else parent.proxyJump
    remoteCommand := if p.remoteCommand ≠ "" then p.remoteCommand else parent.remoteCommand
    remoteDir := if p.remoteDir ≠ "" then p.remoteDir else parent.remoteDir
    instanceID := if p.instanceID ≠ "" then p.instanceID else parent.instanceID
    awsRegion := if p.awsRegion ≠ "" then p.awsRegion else parent.awsRegion
    awsProfile := if p.awsProfile ≠ "" then p.awsProfile else parent.awsProfile
    gcpProject := if p.gcpProject ≠ "" then p.gcpProject else parent.gcpProject
    gcpZone := if p.gcpZone ≠ "" then p.gcpZone else parent.gcpZone
    moshServer := if p.moshServer ≠ "" then p.moshServer else parent.moshServer
    tags := if p.tags ≠ [] then p.tags else parent.tags
    extraArgs := if p.extraArgs ≠ [] then p.extraArgs else parent.extraArgs
    localForwards := if p.localForwards ≠ [] then p.localForwards else parent.localForwards
    remoteForwards := if p.remoteForwards ≠ [] then p.remoteForwards else parent.remoteForwards
    dynamicForwards := if p.dynamicForwards ≠ [] then p.dynamicForwards else parent.dynamicForwards
    setEnv := if p.setEnv ≠ [] then p.setEnv else parent.setEnv
    useAgent := p.useAgent
    favorite := p.favorite
    gcpUseTunnel := p.gcpUseTunnel
    lastUsed := p.lastUsed
    useCount := p.useCount }

/-- The recursive inheritance resolver `resolveInheritance`
(config.go:167-268), indexed by fuel. The Go function terminates because
the visited set grows at each recursive call; `resolveFuel_stable` below
shows the fuel used by `GetProfile` is always sufficient, so the fuel
index is a faithful rendering of the terminating recursion. -/
def resolveInheritanceFuel : Nat → Config → Profile → List String → Profile
  | 0, _, p, _ => p
  | n + 1, c, p, visited =>
    if p.extendsName = "" ∨ p.name ∈ visited then p
    else
      match lookupAssoc c.profiles p.extendsName with
      | none => p
      | some parent =>
        let parent2 := if parent.extendsName ≠ "" then
            resolveInheritanceFuel n c parent (p.name :: visited)
          else parent
        mergeProfiles parent2 p

/-- The names of the profiles stored in the map (the values' `name`
fields; the resolver's visited set holds these names). -/
def profileNames (c : Config) : List String :=
  c.profiles.map (fun kv => kv.2.name)

/-- How many distinct stored profile names are not yet in the visited
list: the resolver's recursion measure. -/
def countUnvisited (c : Config) (visited : List String) : Nat :=
  ((profileNames c).toFinset.filter (fun x => x ∉ visited)).card

/-- The number of distinct stored profile names: a sufficient fuel for
resolution started with an empty visited set. -/
def numNames (c : Config) : Nat := countUnvisited c []

/-- `Config.GetProfile` (config.go:151-164) at a given fuel. -/
def getProfileFuel (fuel : Nat) (c : Config) (name : String) : Option Profile :=
  match lookupAssoc c.profiles name with
  | none => none
  | some p =>
    some (if p.extendsName ≠ "" then resolveInheritanceFuel fuel c p [] else p)

/-- `Config.GetProfile`: look a profile up by name and resolve its
inheritance chain. The fuel `numNames c` is sufficient
(`resolveFuel_stable`). -/
def GetProfile (c : Config) (name : String) : Option Profile :=
  getProfileFuel (numNames c) c name

/-! ### Basic lemmas about the resolver -/

theorem lookupAssoc_mem {β : Type} {l : List (String × β)} {k : String} {v : β}
    (h : lookupAssoc l k = some v) : (k, v) ∈ l := by
  induction l with
  | nil => simp [lookupAssoc] at h
  | cons kv rest ih =>
    obtain ⟨k0, v0⟩ := kv
    by_cases hk : k0 = k
    · subst hk
      simp [lookupAssoc] at h
      simp [h]
    · simp [lookupAssoc, hk] at h
      exact List.mem_cons_of_mem _ (ih h)

theorem lookupAssoc_of_mem_nodup {β : Type} {l : List (String × β)} {k : String} {v : β}
    (hm : (k, v) ∈ l) (hnd : (l.map Prod.fst).Nodup) : lookupAssoc l k = some v := by
  induction l with
  | nil => simp at hm
  | cons kv rest ih =>
    obtain ⟨k0, v0⟩ := kv
    simp only [List.map_cons, List.nodup_cons] at hnd
    rcases List.mem_cons.mp hm with h | h
    · obtain ⟨hk, hv⟩ := Prod.mk.injEq .. ▸ h
      simp [lookupAssoc, hk.symm, hv.symm]
    · have hk : k0 ≠ k := by
        intro e
        subst e
        exact hnd.1 (List.mem_map.mpr ⟨(k0, v), h, rfl⟩)
      simp [lookupAssoc, hk]
      exact ih h hnd.2

/-- The resolver returns its argument unchanged at a guard hit (no parent
pointer, or name already visited), at any fuel. -/
theorem resolveFuel_guard {c : Config} {p : Profile} {visited : List String}
    (h : p.extendsName = "" ∨ p.name ∈ visited) :
    ∀ n, resolveInheritanceFuel n c p visited = p := by
  intro n
  cases n with
  | zero => rfl
  | succ m => simp [resolveInheritanceFuel, h]

/-- Resolution never changes the profile's own name. -/
theorem resolveFuel_name (c : Config) :
    ∀ (n : Nat) (p : Profile) (visited : List String),
      (resolveInheritanceFuel n c p visited).name = p.name := by
  intro n
  induction n with
  | zero => intro p visited; rfl
  | succ m _ =>
    intro p visited
    by_cases hg : p.extendsName = "" ∨ p.name ∈ visited
    · rw [resolveFuel_guard hg]
    · simp only [resolveInheritanceFuel, if_neg hg]
      cases h : lookupAssoc c.profiles p.extendsName with
      | none => rfl
      | some parent => simp [mergeProfiles]

/-- The resolver only tests membership in the visited list, so lists with
the same members are interchangeable. -/
theorem resolveFuel_congr (c : Config) :
    ∀ (n : Nat) (p : Profile) (V W : List String), (∀ x, x ∈ V ↔ x ∈ W) →
      resolveInheritanceFuel n c p V = resolveInheritanceFuel n c p W := by
  intro n
  induction n with
  | zero => intro p V W _; rfl
  | succ m ih =>
    intro p V W hVW
    by_cases hg : p.extendsName = "" ∨ p.name ∈ V
    · have hg2 : p.extendsName = "" ∨ p.name ∈ W := by
        rcases hg with h | h
        · exact Or.inl h
        · exact Or.inr ((hVW p.name).mp h)
      rw [resolveFuel_guard hg, resolveFuel_guard hg2]
    · have hg2 : ¬(p.extendsName = "" ∨ p.name ∈ W) := by
        intro h
        rcases h with h | h
        · exact hg (Or.inl h)
        · exact hg (Or.inr ((hVW p.name).mpr h))
      simp only [resolveInheritanceFuel, if_neg hg, if_neg hg2]
      cases h : lookupAssoc c.profiles p.extendsName with
      | none => rfl
      | some parent =>
        by_cases hpe : parent.extendsName = ""
        · simp [hpe]
        · have : ∀ x, x ∈ p.name :: V ↔ x ∈ p.name :: W := by
            intro x
            simp only [List.mem_cons]
            exact or_congr Iff.rfl (hVW x)
          simp only [if_neg (by simpa using hpe)]
          rw [ih parent (p.name :: V) (p.name :: W) this]

theorem mem_profileNames {c : Config} {p : Profile}
    (hp : p ∈ c.profiles.map Prod.snd) : p.name ∈ profileNames c := by
  simp only [profileNames]
  obtain ⟨kv, hkv, he⟩ := List.mem_map.mp hp
  exact List.mem_map.mpr ⟨kv, hkv, by rw [he]⟩

theorem countUnvisited_pos {c : Config} {x : String} {V : List String}
    (hx : x ∈ profileNames c) (hnv : x ∉ V) : 1 ≤ countUnvisited c V := by
  have : x ∈ (profileNames c).toFinset.filter (fun y => y ∉ V) := by
    simp [List.mem_toFinset, hx, hnv]
  exact Finset.card_pos.mpr ⟨x, this⟩

theorem countUnvisited_cons {c : Config} {x : String} {V : List String}
    (hx : x ∈ profileNames c) (hnv : x ∉ V) :
    countUnvisited c (x :: V) + 1 = countUnvisited c V := by
  have hset : (profileNames c).toFinset.filter (fun y => y ∉ x :: V) =
      ((profileNames c).toFinset.filter (fun y => y ∉ V)).erase x := by
    ext y
    simp only [Finset.mem_filter, Finset.mem_erase, List.mem_cons, List.mem_toFinset]
    constructor
    · intro ⟨hy, hm⟩
      push_neg at hm
      exact ⟨hm.1, hy, hm.2⟩
    · intro ⟨hne, hy, hm⟩
      refine ⟨hy, ?_⟩
      push_neg
      exact ⟨hne, hm⟩
  have hmem : x ∈ (profileNames c).toFinset.filter (fun y => y ∉ V) := by
    simp [List.mem_toFinset, hx, hnv]
  rw [countUnvisited, countUnvisited, hset]
  exact Finset.card_erase_add_one hmem

/-- Fuel adequacy: any two fuels at least the number of distinct unvisited
profile names produce the same resolution result. This is the termination
argument of `resolveInheritance`: each recursive call visits a fresh
stored name, so the recursion depth is bounded by the number of distinct
profile names. -/
theorem resolveFuel_stable (c : Config) :
    ∀ (d : Nat) (p : Profile) (V : List String) (n m : Nat),
      p ∈ c.profiles.map Prod.snd → countUnvisited c V ≤ d → d ≤ n → d ≤ m →
      resolveInheritanceFuel n c p V = resolveInheritanceFuel m c p V := by
  intro d
  induction d with
  | zero =>
    intro p V n m hp hcount _ _
    have hv : p.name ∈ V := by
      by_contra hnv
      have := countUnvisited_pos (mem_profileNames hp) hnv
      omega
    rw [resolveFuel_guard (Or.inr hv), resolveFuel_guard (Or.inr hv)]
  | succ e ih =>
    intro p V n m hp hcount hn hm
    by_cases hg : p.extendsName = "" ∨ p.name ∈ V
    · rw [resolveFuel_guard hg, resolveFuel_guard hg]
    · have hnv : p.name ∉ V := fun h => hg (Or.inr h)
      obtain ⟨n2, rfl⟩ : ∃ n2, n = n2 + 1 := ⟨n - 1, by omega⟩
      obtain ⟨m2, rfl⟩ : ∃ m2, m = m2 + 1 := ⟨m - 1, by omega⟩
      simp only [resolveInheritanceFuel, if_neg hg]
      cases hl : lookupAssoc c.profiles p.extendsName with
      | none => rfl
      | some parent =>
        by_cases hpe : parent.extendsName = ""
        · simp [hpe]
        · have hparent : parent ∈ c.profiles.map Prod.snd :=
            List.mem_map.mpr ⟨(p.extendsName, parent), lookupAssoc_mem hl, rfl⟩
          have hcons := countUnvisited_cons (mem_profileNames hp) hnv
          simp only [if_pos (by simpa using hpe)]
          rw [ih parent (p.name :: V) n2 m2 hparent (by omega) (by omega) (by omega)]

/-! ### Concrete profiles for the cyclic-inheritance scenario -/

/-- Profile `a` of the spec's P3 cycle scenario: `a.extends = "b"`. -/
def cycleA : Profile := { name := "a", extendsName := "b", host := "ha" }

/-- Profile `b` of the spec's P3 cycle scenario: `b.extends = "a"`. -/
def cycleB : Profile := { name := "b", extendsName := "a", port := 2222 }

/-- The two-profile cyclic configuration of the spec's P3 scenario. -/
def cycleConfig : Config := ⟨[("a", cycleA), ("b", cycleB)]⟩

/-- C6: inheritance resolution terminates for every profile mapping: the
recursion is bounded by the number of distinct profile names, so
`GetProfile` computed at any fuel at least `numNames c` equals the
canonical result — the fuel index never matters beyond that bound. On the
cyclic two-profile mapping `a ⇄ b`, resolution returns the best-effort
merged profile (parent chain cut at the first revisited name) rather than
looping or failing. -/
theorem c6_resolution_terminates :
    (∀ (c : Config) (name : String) (fuel : Nat), numNames c ≤ fuel →
      getProfileFuel fuel c name = GetProfile c name)
    ∧ GetProfile cycleConfig "a" =
        some (mergeProfiles (mergeProfiles cycleA cycleB) cycleA) := by
  constructor
  · intro c name fuel hfuel
    simp only [getProfileFuel, GetProfile]
    cases hl : lookupAssoc c.profiles name with
    | none => rfl
    | some p =>
      by_cases hpe : p.extendsName = ""
      · simp [hpe]
      · have hp : p ∈ c.profiles.map Prod.snd :=
          List.mem_map.mpr ⟨(name, p), lookupAssoc_mem hl, rfl⟩
        simp only [if_pos (by simpa using hpe)]
        rw [resolveFuel_stable c (numNames c) p [] fuel (numNames c) hp
          (le_of_eq rfl) hfuel (le_refl _)]
  · rfl

/-- Witness for C6 at the concrete cyclic mapping with an oversupplied
fuel of 7. -/
theorem c6_resolution_terminates_witness :
    getProfileFuel 7 cycleConfig "a" = GetProfile cycleConfig "a" :=
  c6_resolution_terminates.1 cycleConfig "a" 7 (by decide)

/-! ### C2: name and extends invariants of resolution -/

/-- A profile whose `extends` names a profile absent from the mapping. -/
def orphanChild : Profile := { name := "a", extendsName := "missing", host := "h" }

/-- A one-profile configuration whose only profile extends a missing
parent. -/
def orphanConfig : Config := ⟨[("a", orphanChild)]⟩

/-- C2 counterexample: the claim that every resolved profile has an empty
`extends` field fails when the profile's `extends` names a parent absent
from the mapping — `resolveInheritance` returns the profile unchanged in
that case (config.go:173-176), `extends` still set. -/
theorem c2_counterexample :
    ¬ (∀ (c : Config) (name : String) (p : Profile),
        GetProfile c name = some p → p.extendsName = "") := by
  intro h
  have h2 := h orphanConfig "a" orphanChild rfl
  exact (by decide : orphanChild.extendsName ≠ "") h2

/-- C2 amended: for every stored profile X, the resolved profile keeps X's
own name, and `extends` is cleared whenever X has no parent pointer or the
named parent exists in the mapping (in particular in every cyclic chain);
when the parent pointer names an absent profile, X is returned unchanged,
`extends` included. -/
theorem c2_amended_name_extends_invariants :
    ∀ (c : Config) (name : String) (X : Profile),
      lookupAssoc c.profiles name = some X →
      (GetProfile c name).map Profile.name = some X.name
      ∧ ((X.extendsName = "" ∨ (lookupAssoc c.profiles X.extendsName).isSome) →
          (GetProfile c name).map Profile.extendsName = some "")
      ∧ (X.extendsName ≠ "" → lookupAssoc c.profiles X.extendsName = none →
          GetProfile c name = some X) := by
  intro c name X hl
  have hfuel : X.extendsName ≠ "" → ∃ k, numNames c = k + 1 := by
    intro _
    have hX : X ∈ c.profiles.map Prod.snd :=
      List.mem_map.mpr ⟨(name, X), lookupAssoc_mem hl, rfl⟩
    have h1 : 1 ≤ numNames c :=
      countUnvisited_pos (mem_profileNames hX) (List.not_mem_nil _)
    exact ⟨numNames c - 1, by omega⟩
  refine ⟨?_, ?_, ?_⟩
  · simp only [GetProfile, getProfileFuel, hl]
    by_cases hx : X.extendsName = ""
    · simp [hx]
    · simp only [if_pos (by simpa using hx)]
      simp [resolveFuel_name]
  · intro hcase
    simp only [GetProfile, getProfileFuel, hl]
    by_cases hx : X.extendsName = ""
    · simp [hx]
    · obtain ⟨k, hk⟩ := hfuel hx
      rcases hcase with hcase | hcase
      · exact absurd hcase hx
      · obtain ⟨parent, hparent⟩ := Option.isSome_iff_exists.mp hcase
        have hguard : ¬(X.extendsName = "" ∨ X.name ∈ ([] : List String)) := by
          simp [hx]
        simp only [if_pos (by simpa using hx), hk, resolveInheritanceFuel,
          if_neg hguard, hparent]
        simp [mergeProfiles]
  · intro hx hnone
    obtain ⟨k, hk⟩ := hfuel hx
    have hguard : ¬(X.extendsName = "" ∨ X.name ∈ ([] : List String)) := by
      simp [hx]
    simp only [GetProfile, getProfileFuel, hl, if_pos (by simpa using hx), hk,
      resolveInheritanceFuel, if_neg hguard, hnone]

/-- Witness for the amended C2 at the cyclic two-profile mapping: the
resolved profile keeps the child's name and has `extends` cleared. -/
theorem c2_amended_witness :
    (GetProfile cycleConfig "a").map Profile.name = some cycleA.name
    ∧ (GetProfile cycleConfig "a").map Profile.extendsName = some "" := by
  have h := c2_amended_name_extends_invariants cycleConfig "a" cycleA rfl
  exact ⟨h.1, h.2.1 (Or.inr (by decide))⟩

/-! ### C1: inheritance merge, field by field

`resolveFuel_cut` is the key step: resolving the parent chain with the
child's name pre-seeded in the visited set (what `resolveInheritance`
does) agrees, field by field, with resolving the parent from an
unrelated visited set — except that the run may cut at the child, where
the two results differ only in a way the top-level merge absorbs. -/

theorem countUnvisited_congr (c : Config) {V W : List String}
    (h : ∀ x, x ∈ V ↔ x ∈ W) : countUnvisited c V = countUnvisited c W := by
  unfold countUnvisited
  congr 1
  apply Finset.filter_congr
  intro x _
  simp [h x]

/-- One resolver step when the parent lookup succeeds. -/
theorem resolveFuel_step_some (c : Config) {p parent : Profile} {visited : List String}
    (n : Nat) (hguard : ¬(p.extendsName = "" ∨ p.name ∈ visited))
    (hl : lookupAssoc c.profiles p.extendsName = some parent) :
    resolveInheritanceFuel (n + 1) c p visited =
      mergeProfiles
        (if parent.extendsName ≠ "" then
          resolveInheritanceFuel n c parent (p.name :: visited)
        else parent) p := by
  simp only [resolveInheritanceFuel, if_neg hguard, hl]

/-- One resolver step when the parent lookup fails: the profile is
returned unchanged. -/
theorem resolveFuel_step_none (c : Config) {p : Profile} {visited : List String}
    (n : Nat) (hguard : ¬(p.extendsName = "" ∨ p.name ∈ visited))
    (hl : lookupAssoc c.profiles p.extendsName = none) :
    resolveInheritanceFuel (n + 1) c p visited = p := by
  simp only [resolveInheritanceFuel, if_neg hguard, hl]

theorem resolveFuel_cut {α : Type} [DecidableEq α] (g : Profile → α) (z : α)
    (hg : ∀ parent p, g (mergeProfiles parent p) = if g p = z then g parent else g p)
    (c : Config) (C P : Profile)
    (hcoh : ∀ kv ∈ c.profiles, (Prod.snd kv).name = Prod.fst kv)
    (hnodup : (c.profiles.map Prod.fst).Nodup)
    (hC : lookupAssoc c.profiles C.name = some C)
    (hCP : lookupAssoc c.profiles C.extendsName = some P)
    (hCext : C.extendsName ≠ "")
    (hz : g C = z) :
    ∀ (d : Nat) (p : Profile) (V : List String) (n1 n2 : Nat),
      (p.name, p) ∈ c.profiles →
      P.name ∈ p.name :: V →
      C.name ∉ V →
      countUnvisited c V ≤ d →
      countUnvisited c (C.name :: V) ≤ n1 →
      d ≤ n2 →
      (g (resolveInheritanceFuel n1 c p (C.name :: V)) =
         g (resolveInheritanceFuel n2 c p V)
       ∨ (g (resolveInheritanceFuel n1 c p (C.name :: V)) = z
          ∧ g (resolveInheritanceFuel n2 c p V) = g P)) := by
  intro d
  induction d with
  | zero =>
    intro p V n1 n2 hpIn _ _ hcount _ _
    have hpn : p.name ∈ profileNames c :=
      mem_profileNames (List.mem_map.mpr ⟨(p.name, p), hpIn, rfl⟩)
    have hv : p.name ∈ V := by
      by_contra hnv
      have := countUnvisited_pos hpn hnv
      omega
    rw [resolveFuel_guard (Or.inr (List.mem_cons_of_mem _ hv)),
      resolveFuel_guard (Or.inr hv)]
    exact Or.inl rfl
  | succ e ih =>
    intro p V n1 n2 hpIn hPinv hCnV hcount hn1 hn2
    by_cases hpe : p.extendsName = ""
    · rw [resolveFuel_guard (Or.inl hpe), resolveFuel_guard (Or.inl hpe)]
      exact Or.inl rfl
    by_cases hpv : p.name ∈ V
    · rw [resolveFuel_guard (Or.inr (List.mem_cons_of_mem _ hpv)),
        resolveFuel_guard (Or.inr hpv)]
      exact Or.inl rfl
    have hpn : p.name ∈ profileNames c :=
      mem_profileNames (List.mem_map.mpr ⟨(p.name, p), hpIn, rfl⟩)
    have hn2pos : 1 ≤ n2 := by omega
    by_cases hpc : p.name = C.name
    · -- the cut node: run 1 stops at C, run 2 merges C over P
      have hpC : p = C := by
        have hlp : lookupAssoc c.profiles C.name = some p :=
          lookupAssoc_of_mem_nodup (hpc ▸ hpIn) hnodup
        exact Option.some.inj (hlp.symm.trans hC)
      subst hpC
      rw [resolveFuel_guard (Or.inr (hpc ▸ List.mem_cons_self _ _))]
      obtain ⟨b, rfl⟩ : ∃ b, n2 = b + 1 := ⟨n2 - 1, by omega⟩
      have hguard2 : ¬(p.extendsName = "" ∨ p.name ∈ V) := by
        intro h
        rcases h with h | h
        · exact hpe h
        · exact hpv h
      simp only [resolveInheritanceFuel, if_neg hguard2, hCP]
      have hrun2 : ∀ parent2fuel : Nat,
          resolveInheritanceFuel parent2fuel c P (p.name :: V) = P :=
        fun f => resolveFuel_guard (Or.inr (hpc ▸ hPinv)) f
      by_cases hPe : P.extendsName = ""
      · simp only [if_neg (not_not_intro hPe)]
        rw [hg]
        rw [if_pos hz]
        exact Or.inr ⟨hz, rfl⟩
      · simp only [if_pos (by simpa using hPe), hrun2]
        rw [hg]
        rw [if_pos hz]
        exact Or.inr ⟨hz, rfl⟩
    · -- an ordinary chain node: both runs step in lockstep
      have hn1pos : 1 ≤ n1 := by
        have hpcv : p.name ∉ C.name :: V := by
          simp only [List.mem_cons]
          push_neg
          exact ⟨hpc, hpv⟩
        have := countUnvisited_pos hpn hpcv
        omega
      obtain ⟨a, rfl⟩ : ∃ a, n1 = a + 1 := ⟨n1 - 1, by omega⟩
      obtain ⟨b, rfl⟩ : ∃ b, n2 = b + 1 := ⟨n2 - 1, by omega⟩
      have hguard1 : ¬(p.extendsName = "" ∨ p.name ∈ C.name :: V) := by
        intro h
        rcases h with h | h
        · exact hpe h
        · rcases List.mem_cons.mp h with h | h
          · exact hpc h
          · exact hpv h
      have hguard2 : ¬(p.extendsName = "" ∨ p.name ∈ V) := by
        intro h
        rcases h with h | h
        · exact hpe h
        · exact hpv h
      simp only [resolveInheritanceFuel, if_neg hguard1, if_neg hguard2]
      cases hl : lookupAssoc c.profiles p.extendsName with
      | none => exact Or.inl rfl
      | some q =>
        by_cases hqe : q.extendsName = ""
        · simp only [if_neg (not_not_intro hqe)]
          exact Or.inl trivial
        · simp only [if_pos (by simpa using hqe)]
          have hqIn : (q.name, q) ∈ c.profiles := by
            have hm := lookupAssoc_mem hl
            have he := hcoh _ hm
            rw [he]
            exact hm
          have hcongr1 : resolveInheritanceFuel a c q (p.name :: C.name :: V) =
              resolveInheritanceFuel a c q (C.name :: p.name :: V) := by
            apply resolveFuel_congr
            intro x
            simp only [List.mem_cons]
            tauto
          have hconsV := countUnvisited_cons hpn hpv
          have hpCV : p.name ∉ C.name :: V := by
            simp only [List.mem_cons]
            push_neg
            exact ⟨hpc, hpv⟩
          have hconsCV := countUnvisited_cons hpn hpCV
          have hcountswap : countUnvisited c (C.name :: p.name :: V) =
              countUnvisited c (p.name :: C.name :: V) := by
            apply countUnvisited_congr
            intro x
            simp only [List.mem_cons]
            tauto
          have hrec := ih q (p.name :: V) a b hqIn
            (List.mem_cons_of_mem _ hPinv)
            (by
              simp only [List.mem_cons]
              push_neg
              exact ⟨fun h => hpc h.symm, hCnV⟩)
            (by omega)
            (by omega)
            (by omega)
          rw [hcongr1]
          rcases hrec with heq | ⟨h1, h2⟩
          · rw [hg, hg, heq]
            exact Or.inl rfl
          · by_cases hgp : g p = z
            · rw [hg, hg, if_pos hgp, if_pos hgp, h1, h2]
              exact Or.inr ⟨rfl, rfl⟩
            · rw [hg, hg, if_neg hgp, if_neg hgp]
              exact Or.inl rfl

/-- Generic per-field inheritance statement: for any overridable field
(given by an accessor `g` whose merge behaviour is child-wins-if-non-zero,
`hg`), resolving a child profile C that extends P yields C's field when it
is non-zero and resolve(P)'s field otherwise. The configuration is
assumed coherent (stored key = profile name, keys distinct), which is the
invariant `UpsertProfile` maintains. -/
theorem getProfile_field {α : Type} [DecidableEq α] (g : Profile → α) (z : α)
    (hg : ∀ parent p, g (mergeProfiles parent p) = if g p = z then g parent else g p)
    (c : Config) (C P : Profile)
    (hcoh : ∀ kv ∈ c.profiles, (Prod.snd kv).name = Prod.fst kv)
    (hnodup : (c.profiles.map Prod.fst).Nodup)
    (hC : lookupAssoc c.profiles C.name = some C)
    (hP : lookupAssoc c.profiles P.name = some P)
    (hext : C.extendsName = P.name)
    (hPne : P.name ≠ "")
    (RC RP : Profile)
    (hRC : GetProfile c C.name = some RC)
    (hRP : GetProfile c P.name = some RP) :
    g RC = if g C = z then g RP else g C := by
  have hCext : C.extendsName ≠ "" := by rw [hext]; exact hPne
  have hCP : lookupAssoc c.profiles C.extendsName = some P := by rw [hext]; exact hP
  have hCnames : C.name ∈ profileNames c :=
    mem_profileNames (List.mem_map.mpr ⟨(C.name, C), lookupAssoc_mem hC, rfl⟩)
  have hPnames : P.name ∈ profileNames c :=
    mem_profileNames (List.mem_map.mpr ⟨(P.name, P), lookupAssoc_mem hP, rfl⟩)
  have hN1 : 1 ≤ numNames c := countUnvisited_pos hCnames (List.not_mem_nil _)
  have hRCeq : RC = resolveInheritanceFuel (numNames c) c C [] := by
    have hthis : GetProfile c C.name =
        some (resolveInheritanceFuel (numNames c) c C []) := by
      simp [GetProfile, getProfileFuel, hC, hCext]
    rw [hRC] at hthis
    exact Option.some.inj hthis
  by_cases hPC : P.name = C.name
  · -- degenerate self-extension: C extends itself
    have hPeqC : P = C := by
      have hlp : lookupAssoc c.profiles C.name = some P := hPC ▸ hP
      exact Option.some.inj (hlp.symm.trans hC)
    obtain ⟨k, hk⟩ : ∃ k, numNames c = k + 1 := ⟨numNames c - 1, by omega⟩
    have hguard : ¬(C.extendsName = "" ∨ C.name ∈ ([] : List String)) := by
      simp [hCext]
    have hCC : lookupAssoc c.profiles C.extendsName = some C := hPeqC ▸ hCP
    have hRCval : RC = mergeProfiles C C := by
      rw [hRCeq, hk, resolveFuel_step_some c k hguard hCC, if_pos hCext,
        resolveFuel_guard (Or.inr (List.mem_cons_self _ _))]
    have hRPval : RP = RC := by
      have hthis : GetProfile c P.name =
          some (resolveInheritanceFuel (numNames c) c C []) := by
        rw [hPC]
        simp [GetProfile, getProfileFuel, hC, hCext, hPeqC]
      rw [hRP, ← hRCeq] at hthis
      exact Option.some.inj hthis
    by_cases hgz : g C = z
    · rw [if_pos hgz, hRPval]
    · rw [if_neg hgz, hRCval, hg, if_neg hgz]
  · -- distinct parent and child
    have hCPne : C.name ≠ P.name := fun h => hPC h.symm
    have h2N : 2 ≤ numNames c := by
      have hsub : ({C.name, P.name} : Finset String) ⊆
          (profileNames c).toFinset.filter (fun y => y ∉ ([] : List String)) := by
        intro x hx
        simp only [Finset.mem_insert, Finset.mem_singleton] at hx
        rcases hx with h | h <;> subst h <;>
          simp [List.mem_toFinset, hCnames, hPnames]
      have hcard : ({C.name, P.name} : Finset String).card = 2 :=
        Finset.card_pair hCPne
      have := Finset.card_le_card hsub
      rw [hcard] at this
      exact this
    obtain ⟨k, hk⟩ : ∃ k, numNames c = k + 1 := ⟨numNames c - 1, by omega⟩
    have hkpos : 1 ≤ k := by omega
    have hguard : ¬(C.extendsName = "" ∨ C.name ∈ ([] : List String)) := by
      simp [hCext]
    by_cases hPe : P.extendsName = ""
    · -- parent needs no resolution
      have hRCval : RC = mergeProfiles P C := by
        rw [hRCeq, hk]
        simp only [resolveInheritanceFuel, if_neg hguard, hCP,
          if_neg (not_not_intro hPe)]
      have hRPval : RP = P := by
        have hthis : GetProfile c P.name = some P := by
          simp [GetProfile, getProfileFuel, hP, hPe]
        rw [hRP] at hthis
        exact Option.some.inj hthis
      rw [hRCval, hRPval, hg]
    · -- parent resolves through its own chain
      have hRPeq : RP = resolveInheritanceFuel (numNames c) c P [] := by
        have hthis : GetProfile c P.name =
            some (resolveInheritanceFuel (numNames c) c P []) := by
          simp [GetProfile, getProfileFuel, hP, hPe]
        rw [hRP] at hthis
        exact Option.some.inj hthis
      have hRCval : RC = mergeProfiles (resolveInheritanceFuel k c P [C.name]) C := by
        rw [hRCeq, hk, resolveFuel_step_some c k hguard hCP, if_pos hPe]
      by_cases hgz : g C = z
      · rw [if_pos hgz, hRCval, hg, if_pos hgz, hRPeq, hk]
        obtain ⟨j, hj⟩ : ∃ j, k = j + 1 := ⟨k - 1, by omega⟩
        have hPnC : P.name ∉ [C.name] := by simp [hPC]
        have hguardP1 : ¬(P.extendsName = "" ∨ P.name ∈ [C.name]) := by
          push_neg
          exact ⟨hPe, hPnC⟩
        have hguardP2 : ¬(P.extendsName = "" ∨ P.name ∈ ([] : List String)) := by
          simp [hPe]
        cases hl2 : lookupAssoc c.profiles P.extendsName with
        | none =>
          rw [hj, resolveFuel_step_none c j hguardP1 hl2,
            resolveFuel_step_none c (j + 1) hguardP2 hl2]
        | some Q =>
          rw [hj, resolveFuel_step_some c j hguardP1 hl2,
            resolveFuel_step_some c (j + 1) hguardP2 hl2]
          by_cases hQe : Q.extendsName = ""
          · rw [if_neg (not_not_intro hQe), if_neg (not_not_intro hQe)]
          · rw [if_pos hQe, if_pos hQe]
            have hQIn : (Q.name, Q) ∈ c.profiles := by
              have hm := lookupAssoc_mem hl2
              have he := hcoh _ hm
              rw [he]
              exact hm
            have hcongr : resolveInheritanceFuel j c Q (P.name :: [C.name]) =
                resolveInheritanceFuel j c Q (C.name :: [P.name]) := by
              apply resolveFuel_congr
              intro x
              simp only [List.mem_cons]
              tauto
            have e1 := countUnvisited_cons hCnames (List.not_mem_nil C.name)
            have e2 := countUnvisited_cons hPnames hPnC
            have e3 := countUnvisited_cons hPnames (List.not_mem_nil P.name)
            have e4 : countUnvisited c (C.name :: [P.name]) =
                countUnvisited c (P.name :: [C.name]) := by
              apply countUnvisited_congr
              intro x
              simp only [List.mem_cons]
              tauto
            have hrec := resolveFuel_cut g z hg c C P hcoh hnodup hC hCP hCext hgz
              k Q [P.name] j (j + 1) hQIn
              (List.mem_cons_of_mem _ (List.mem_cons_self _ _))
              (by simp [hCPne])
              (by unfold numNames at hk; omega)
              (by unfold numNames at hk; omega)
              (by omega)
            rw [hg, hg, hcongr]
            rcases hrec with heq | ⟨h1, h2⟩
            · rw [heq]
            · by_cases hgP : g P = z
              · rw [if_pos hgP, if_pos hgP, h1, h2]
                exact hgP.symm
              · rw [if_neg hgP, if_neg hgP]
      · rw [if_neg hgz, hRCval, hg, if_neg hgz]

/-- C1: inheritance merge semantics. For a parent profile P and child C
with `C.extends = P.name` in a coherent mapping (stored key = profile
name, keys distinct), every string-valued, numeric, and slice-valued
overridable field of the resolved child equals the child's own value when
it is non-zero (non-empty string, non-zero port, non-empty slice taken in
its entirety) and the resolved parent's value when it is the zero value;
slices are replaced wholesale, never concatenated. -/
theorem c1_inheritance_merge (c : Config) (C P : Profile)
    (hcoh : ∀ kv ∈ c.profiles, (Prod.snd kv).name = Prod.fst kv)
    (hnodup : (c.profiles.map Prod.fst).Nodup)
    (hC : lookupAssoc c.profiles C.name = some C)
    (hP : lookupAssoc c.profiles P.name = some P)
    (hext : C.extendsName = P.name)
    (hPne : P.name ≠ "")
    (RC RP : Profile)
    (hRC : GetProfile c C.name = some RC)
    (hRP : GetProfile c P.name = some RP) :
    RC.protocol = (if C.protocol = "" then RP.protocol else C.protocol)
    ∧ RC.host = (if C.host = "" then RP.host else C.host)
    ∧ RC.port = (if C.port = 0 then RP.port else C.port)
    ∧ RC.username = (if C.username = "" then RP.username else C.username)
    ∧ RC.identityFile = (if C.identityFile = "" then RP.identityFile else C.identityFile)
    ∧ RC.group = (if C.group = "" then RP.group else C.group)
    ∧ RC.description = (if C.description = "" then RP.description else C.description)
    ∧ RC.proxyJump = (if C.proxyJump = "" then RP.proxyJump else C.proxyJump)
    ∧ RC.remoteCommand = (if C.remoteCommand = "" then RP.remoteCommand else C.remoteCommand)
    ∧ RC.remoteDir = (if C.remoteDir = "" then RP.remoteDir else C.remoteDir)
    ∧ RC.instanceID = (if C.instanceID = "" then RP.instanceID else C.instanceID)
    ∧ RC.awsRegion = (if C.awsRegion = "" then RP.awsRegion else C.awsRegion)
    ∧ RC.awsProfile = (if C.awsProfile = "" then RP.awsProfile else C.awsProfile)
    ∧ RC.gcpProject = (if C.gcpProject = "" then RP.gcpProject else C.gcpProject)
    ∧ RC.gcpZone = (if C.gcpZone = "" then RP.gcpZone else C.gcpZone)
    ∧ RC.moshServer = (if C.moshServer = "" then RP.moshServer else C.moshServer)
    ∧ RC.tags = (if C.tags = [] then RP.tags else C.tags)
    ∧ RC.extraArgs = (if C.extraArgs = [] then RP.extraArgs else C.extraArgs)
    ∧ RC.localForwards = (if C.localForwards = [] then RP.localForwards else C.localForwards)
    ∧ RC.remoteForwards = (if C.remoteForwards = [] then RP.remoteForwards else C.remoteForwards)
    ∧ RC.dynamicForwards = (if C.dynamicForwards = [] then RP.dynamicForwards else C.dynamicForwards)
    ∧ RC.setEnv = (if C.setEnv = [] then RP.setEnv else C.setEnv) :=
  ⟨getProfile_field (fun q => q.protocol) ""
      (by intro parent p; by_cases h : p.protocol = "" <;> simp [mergeProfiles, h])
      c C P hcoh hnodup hC hP hext hPne RC RP hRC hRP,
    getProfile_field (fun q => q.host) ""
      (by intro parent p; by_cases h : p.host = "" <;> simp [mergeProfiles, h])
      c C P hcoh hnodup hC hP hext hPne RC RP hRC hRP,
    getProfile_field (fun q => q.port) 0
      (by intro parent p; by_cases h : p.port = 0 <;> simp [mergeProfiles, h])
      c C P hcoh hnodup hC hP hext hPne RC RP hRC hRP,
    getProfile_field (fun q => q.username) ""
      (by intro parent p; by_cases h : p.username = "" <;> simp [mergeProfiles, h])
      c C P hcoh hnodup hC hP hext hPne RC RP hRC hRP,
    getProfile_field (fun q => q.identityFile) ""
      (by intro parent p; by_cases h : p.identityFile = "" <;> simp [mergeProfiles, h])
      c C P hcoh hnodup hC hP hext hPne RC RP hRC hRP,
    getProfile_field (fun q => q.group) ""
      (by intro parent p; by_cases h : p.group = "" <;> simp [mergeProfiles, h])
      c C P hcoh hnodup hC hP hext hPne RC RP hRC hRP,
    getProfile_field (fun q => q.description) ""
      (by intro parent p; by_cases h : p.description = "" <;> simp [mergeProfiles, h])
      c C P hcoh hnodup hC hP hext hPne RC RP hRC hRP,
    getProfile_field (fun q => q.proxyJump) ""
      (by intro parent p; by_cases h : p.proxyJump = "" <;> simp [mergeProfiles, h])
      c C P hcoh hnodup hC hP hext hPne RC RP hRC hRP,
    getProfile_field (fun q => q.remoteCommand) ""
      (by intro parent p; by_cases h : p.remoteCommand = "" <;> simp [mergeProfiles, h])
      c C P hcoh hnodup hC hP hext hPne RC RP hRC hRP,
    getProfile_field (fun q => q.remoteDir) ""
      (by intro parent p; by_cases h : p.remoteDir = "" <;> simp [mergeProfiles, h])
      c C P hcoh hnodup hC hP hext hPne RC RP hRC hRP,
    getProfile_field (fun q => q.instanceID) ""
      (by intro parent p; by_cases h : p.instanceID = "" <;> simp [mergeProfiles, h])
      c C P hcoh hnodup hC hP hext hPne RC RP hRC hRP,
    getProfile_field (fun q => q.awsRegion) ""
      (by intro parent p; by_cases h : p.awsRegion = "" <;> simp [mergeProfiles, h])
      c C P hcoh hnodup hC hP hext hPne RC RP hRC hRP,
    getProfile_field (fun q => q.awsProfile) ""
      (by intro parent p; by_cases h : p.awsProfile = "" <;> simp [mergeProfiles, h])
      c C P hcoh hnodup hC hP hext hPne RC RP hRC hRP,
    getProfile_field (fun q => q.gcpProject) ""
      (by intro parent p; by_cases h : p.gcpProject = "" <;> simp [mergeProfiles, h])
      c C P hcoh hnodup hC hP hext hPne RC RP hRC hRP,
    getProfile_field (fun q => q.gcpZone) ""
      (by intro parent p; by_cases h : p.gcpZone = "" <;> simp [mergeProfiles, h])
      c C P hcoh hnodup hC hP hext hPne RC RP hRC hRP,
    getProfile_field (fun q => q.moshServer) ""
      (by intro parent p; by_cases h : p.moshServer = "" <;> simp [mergeProfiles, h])
      c C P hcoh hnodup hC hP hext hPne RC RP hRC hRP,
    getProfile_field (fun q => q.tags) []
      (by intro parent p; by_cases h : p.tags = [] <;> simp [mergeProfiles, h])
      c C P hcoh hnodup hC hP hext hPne RC RP hRC hRP,
    getProfile_field (fun q => q.extraArgs) []
      (by intro parent p; by_cases h : p.extraArgs = [] <;> simp [mergeProfiles, h])
      c C P hcoh hnodup hC hP hext hPne RC RP hRC hRP,
    getProfile_field (fun q => q.localForwards) []
      (by intro parent p; by_cases h : p.localForwards = [] <;> simp [mergeProfiles, h])
      c C P hcoh hnodup hC hP hext hPne RC RP hRC hRP,
    getProfile_field (fun q => q.remoteForwards) []
      (by intro parent p; by_cases h : p.remoteForwards = [] <;> simp [mergeProfiles, h])
      c C P hcoh hnodup hC hP hext hPne RC RP hRC hRP,
    getProfile_field (fun q => q.dynamicForwards) []
      (by intro parent p; by_cases h : p.dynamicForwards = [] <;> simp [mergeProfiles, h])
      c C P hcoh hnodup hC hP hext hPne RC RP hRC hRP,
    getProfile_field (fun q => q.setEnv) []
      (by intro parent p; by_cases h : p.setEnv = [] <;> simp [mergeProfiles, h])
      c C P hcoh hnodup hC hP hext hPne RC RP hRC hRP⟩

/-- The spec's P1 concrete parent profile. -/
def exParent : Profile := { name := "parent", host := "gp.example.com", identityFile := "/key" }

/-- The spec's P1 concrete child profile, extending `parent`. -/
def exChild : Profile := { name := "child", host := "child.example.com", extendsName := "parent" }

/-- Two-profile configuration for the P1 scenario. -/
def exConfig : Config := ⟨[("parent", exParent), ("child", exChild)]⟩

/-- Witness for C1 at the spec's P1 scenario: the child's own host wins,
the identity file is inherited from the parent, and so on for every
overridable field. -/
theorem c1_inheritance_merge_witness :
    (mergeProfiles exParent exChild).protocol =
      (if exChild.protocol = "" then exParent.protocol else exChild.protocol)
    ∧ (mergeProfiles exParent exChild).host =
      (if exChild.host = "" then exParent.host else exChild.host)
    ∧ (mergeProfiles exParent exChild).port =
      (if exChild.port = 0 then exParent.port else exChild.port)
    ∧ (mergeProfiles exParent exChild).username =
      (if exChild.username = "" then exParent.username else exChild.username)
    ∧ (mergeProfiles exParent exChild).identityFile =
      (if exChild.identityFile = "" then exParent.identityFile else exChild.identityFile)
    ∧ (mergeProfiles exParent exChild).group =
      (if exChild.group = "" then exParent.group else exChild.group)
    ∧ (mergeProfiles exParent exChild).description =
      (if exChild.description = "" then exParent.description else exChild.description)
    ∧ (mergeProfiles exParent exChild).proxyJump =
      (if exChild.proxyJump = "" then exParent.proxyJump else exChild.proxyJump)
    ∧ (mergeProfiles exParent exChild).remoteCommand =
      (if exChild.remoteCommand = "" then exParent.remoteCommand else exChild.remoteCommand)
    ∧ (mergeProfiles exParent exChild).remoteDir =
      (if exChild.remoteDir = "" then exParent.remoteDir else exChild.remoteDir)
    ∧ (mergeProfiles exParent exChild).instanceID =
      (if exChild.instanceID = "" then exParent.instanceID else exChild.instanceID)
    ∧ (mergeProfiles exParent exChild).awsRegion =
      (if exChild.awsRegion = "" then exParent.awsRegion else exChild.awsRegion)
    ∧ (mergeProfiles exParent exChild).awsProfile =
      (if exChild.awsProfile = "" then exParent.awsProfile else exChild.awsProfile)
    ∧ (mergeProfiles exParent exChild).gcpProject =
      (if exChild.gcpProject = "" then exParent.gcpProject else exChild.gcpProject)
    ∧ (mergeProfiles exParent exChild).gcpZone =
      (if exChild.gcpZone = "" then exParent.gcpZone else exChild.gcpZone)
    ∧ (mergeProfiles exParent exChild).moshServer =
      (if exChild.moshServer = "" then exParent.moshServer else exChild.moshServer)
    ∧ (mergeProfiles exParent exChild).tags =
      (if exChild.tags = [] then exParent.tags else exChild.tags)
    ∧ (mergeProfiles exParent exChild).extraArgs =
      (if exChild.extraArgs = [] then exParent.extraArgs else exChild.extraArgs)
    ∧ (mergeProfiles exParent exChild).localForwards =
      (if exChild.localForwards = [] then exParent.localForwards else exChild.localForwards)
    ∧ (mergeProfiles exParent exChild).remoteForwards =
      (if exChild.remoteForwards = [] then exParent.remoteForwards else exChild.remoteForwards)
    ∧ (mergeProfiles exParent exChild).dynamicForwards =
      (if exChild.dynamicForwards = [] then exParent.dynamicForwards else exChild.dynamicForwards)
    ∧ (mergeProfiles exParent exChild).setEnv =
      (if exChild.setEnv = [] then exParent.setEnv else exChild.setEnv) :=
  c1_inheritance_merge exConfig exChild exParent
    (by decide) (by decide) (by decide) (by decide) (by decide) (by decide)
    (mergeProfiles exParent exChild) exParent (by decide) (by decide)

/-! ### Shell quoting (ssh.go:256-259) and a POSIX word-splitting model -/

/-- The single-quote character. -/
def squoteChar : Char := '\''

/-- The double-quote character. -/
def dquoteChar : Char := '"'

/-- The backslash character. -/
def bslashChar : Char := '\\'

/-- The dollar character (starts an expansion when unquoted). -/
def dollarChar : Char := '$'

/-- The backtick character (starts a command substitution when
unquoted). -/
def btickChar : Char := Char.ofNat 96

/-- Character-level body of `shellQuote`: each single quote becomes the
five characters of the standard escape (Go:
`strings.ReplaceAll(s, "'", "'\"'\"'")`). -/
def shellQuoteChars (cs : List Char) : List Char :=
  cs.flatMap (fun ch =>
    if ch = squoteChar then
      [squoteChar, dquoteChar, squoteChar, dquoteChar, squoteChar]
    else [ch])

/-- `shellQuote` (ssh.go:256-259): wrap in single quotes, with the
standard escape for embedded single quotes. -/
def shellQuote (s : String) : String :=
  "'" ++ String.mk (shellQuoteChars s.data) ++ "'"

/-- Quoting state of the POSIX word splitter. `normEsc` and `doubleEsc`
are the states right after a backslash, outside and inside double quotes
respectively. -/
inductive ShMode where
  | norm
  | single
  | double
  | normEsc
  | doubleEsc
  deriving DecidableEq, Repr

/-- A model of POSIX shell field splitting with quote removal and no
expansions: space and tab separate fields outside quotes; single quotes
protect everything up to the closing quote; double quotes protect all but
dollar, backtick and backslash; backslash escapes the next character.
Inputs that would trigger an expansion (`$` or a backtick outside single
quotes) and unterminated quotes are rejected with `none`, so a `some`
result is literal text. -/
def parseFields : List Char → ShMode → List Char → Bool → List String → Option (List String)
  | [], .norm, acc, started, words =>
      some (if started then words ++ [String.mk acc] else words)
  | [], .single, _, _, _ => none
  | [], .double, _, _, _ => none
  | [], .normEsc, _, _, _ => none
  | [], .doubleEsc, _, _, _ => none
  | ch :: cs, .norm, acc, started, words =>
      if ch = ' ' ∨ ch = '\t' then
        if started then parseFields cs .norm [] false (words ++ [String.mk acc])
        else parseFields cs .norm [] false words
      else if ch = squoteChar then parseFields cs .single acc true words
      else if ch = dquoteChar then parseFields cs .double acc true words
      else if ch = bslashChar then parseFields cs .normEsc acc true words
      else if ch = dollarChar ∨ ch = btickChar then none
      else parseFields cs .norm (acc ++ [ch]) true words
  | ch :: cs, .normEsc, acc, _, words =>
      parseFields cs .norm (acc ++ [ch]) true words
  | ch :: cs, .single, acc, started, words =>
      if ch = squoteChar then parseFields cs .norm acc started words
      else parseFields cs .single (acc ++ [ch]) started words
  | ch :: cs, .double, acc, started, words =>
      if ch = dquoteChar then parseFields cs .norm acc started words
      else if ch = dollarChar ∨ ch = btickChar then none
      else if ch = bslashChar then parseFields cs .doubleEsc acc started words
      else parseFields cs .double (acc ++ [ch]) started words
  | ch :: cs, .doubleEsc, acc, started, words =>
      if ch = dquoteChar ∨ ch = bslashChar ∨ ch = dollarChar ∨ ch = btickChar then
        parseFields cs .double (acc ++ [ch]) started words
      else parseFields cs .double (acc ++ [bslashChar, ch]) started words

/-- Split a string into its POSIX fields (words), starting outside any
quote. -/
def parseWords (s : String) : Option (List String) :=
  parseFields s.data .norm [] false []

theorem parse_norm_sq (cs : List Char) (acc : List Char) (st : Bool) (ws : List String) :
    parseFields (squoteChar :: cs) .norm acc st ws = parseFields cs .single acc true ws := rfl

theorem parse_norm_dq (cs : List Char) (acc : List Char) (st : Bool) (ws : List String) :
    parseFields (dquoteChar :: cs) .norm acc st ws = parseFields cs .double acc true ws := rfl

theorem parse_single_sq (cs : List Char) (acc : List Char) (st : Bool) (ws : List String) :
    parseFields (squoteChar :: cs) .single acc st ws = parseFields cs .norm acc st ws := rfl

theorem parse_single_other {ch : Char} (h : ch ≠ squoteChar)
    (cs : List Char) (acc : List Char) (st : Bool) (ws : List String) :
    parseFields (ch :: cs) .single acc st ws =
      parseFields cs .single (acc ++ [ch]) st ws := by
  simp [parseFields, h]

theorem parse_double_sq (cs : List Char) (acc : List Char) (st : Bool) (ws : List String) :
    parseFields (squoteChar :: cs) .double acc st ws =
      parseFields cs .double (acc ++ [squoteChar]) st ws := rfl

theorem parse_double_dq (cs : List Char) (acc : List Char) (st : Bool) (ws : List String) :
    parseFields (dquoteChar :: cs) .double acc st ws = parseFields cs .norm acc st ws := rfl

/-- Inside the single-quoted body produced by `shellQuoteChars`, the
splitter copies the original characters verbatim and ends in normal mode
at the closing quote. -/
theorem parseFields_quoted (cs : List Char) :
    ∀ (acc : List Char) (words : List String),
      parseFields (shellQuoteChars cs ++ [squoteChar]) .single acc true words =
        some (words ++ [String.mk (acc ++ cs)]) := by
  induction cs with
  | nil =>
    intro acc words
    simp [shellQuoteChars, parse_single_sq, parseFields]
  | cons ch cs ih =>
    intro acc words
    by_cases h : ch = squoteChar
    · subst h
      have hexp : shellQuoteChars (squoteChar :: cs) ++ [squoteChar] =
          squoteChar :: dquoteChar :: squoteChar :: dquoteChar :: squoteChar ::
            (shellQuoteChars cs ++ [squoteChar]) := by
        simp [shellQuoteChars]
      rw [hexp, parse_single_sq, parse_norm_dq, parse_double_sq, parse_double_dq,
        parse_norm_sq, ih]
      simp
    · have hexp : shellQuoteChars (ch :: cs) ++ [squoteChar] =
          ch :: (shellQuoteChars cs ++ [squoteChar]) := by
        simp [shellQuoteChars, h]
      rw [hexp, parse_single_other h, ih]
      simp

/-- C7: quoting round-trip. For any string — including strings containing
single quotes, spaces, dollar signs, or backticks — `shellQuote` produces
a token that the POSIX word splitter parses as exactly one word whose
value is the original string. -/
theorem c7_quoting_roundtrip (s : String) : parseWords (shellQuote s) = some [s] := by
  obtain ⟨cs⟩ := s
  have hdata : (shellQuote (String.mk cs)).data =
      squoteChar :: (shellQuoteChars cs ++ [squoteChar]) := by
    simp [shellQuote, String.data_append]
    rfl
  unfold parseWords
  rw [hdata, parse_norm_sq, parseFields_quoted]
  simp

/-! ### Remote-command synthesis and the ssh argument vector (ssh.go) -/

/-- `strings.Join`: concatenate with a separator between elements. -/
def strJoin (sep : String) : List String → String
  | [] => ""
  | x :: xs => xs.foldl (fun acc s2 => acc ++ sep ++ s2) x

/-- `buildRemoteCommand` (ssh.go:232-253): a quoted `cd` clause when a
remote directory is set, then the explicit remote command, or an
interactive login shell when only the directory was set, joined with a
logical AND. -/
def buildRemoteCommand (p : Profile) : String :=
  let parts : List String :=
    (if p.remoteDir ≠ "" then ["cd " ++ shellQuote p.remoteDir] else [])
    ++ (if p.remoteCommand ≠ "" then [p.remoteCommand]
        else if p.remoteDir ≠ "" then ["exec $SHELL -l"] else [])
  if parts = [] then "" else strJoin " && " parts

/-- The password-auth option block (ssh.go:72-76), inserted as pairs of
`-o` and option text. -/
def passwordAuthOpts : List String :=
  ["-o", "PreferredAuthentications=password", "-o", "PubkeyAuthentication=no",
   "-o", "ChallengeResponseAuthentication=no", "-o", "ConnectTimeout=10"]

/-- One flag per non-empty forward entry (ssh.go:33-47). -/
def sshForwardOpts (flag : String) (fwds : List String) : List String :=
  fwds.flatMap (fun f2 => if f2 ≠ "" then [flag, f2] else [])

/-- The argument chunks of `sshConnector.Exec` (ssh.go:19-54) that precede
the password-auth block: port, login name, identity file, proxy jump,
forwards, and on-connect environment assignments. -/
def sshArgsPre (p : Profile) : List String :=
  (if p.port > 0 then ["-p", toString p.port] else [])
  ++ (if p.username ≠ "" then ["-l", p.username] else [])
  ++ (if p.identityFile ≠ "" then ["-i", p.identityFile] else [])
  ++ (if p.proxyJump ≠ "" then ["-J", p.proxyJump] else [])
  ++ sshForwardOpts "-L" p.localForwards
  ++ sshForwardOpts "-R" p.remoteForwards
  ++ sshForwardOpts "-D" p.dynamicForwards
  ++ p.setEnv.flatMap (fun env => if env ≠ "" then ["-o", "SetEnv=" ++ env] else [])

/-- The argument chunks of `sshConnector.Exec` (ssh.go:79-94) that follow
the password-auth block: extra raw arguments, the TTY request, the host,
and the synthesized remote command. -/
def sshArgsPost (p : Profile) : List String :=
  p.extraArgs
  ++ (if p.remoteCommand ≠ "" ∨ p.remoteDir ≠ "" then ["-t"] else [])
  ++ [p.host]
  ++ (if buildRemoteCommand p ≠ "" then [buildRemoteCommand p] else [])

/-- The full argument vector `sshConnector.Exec` hands to the `ssh`
binary (ssh.go:19-94): the password-auth option block is inserted exactly
when a password is available and no identity file is configured. -/
def sshArgs (p : Profile) (password : String) : List String :=
  (if p.port > 0 then ["-p", toString p.port] else [])
  ++ (if p.username ≠ "" then ["-l", p.username] else [])
  ++ (if p.identityFile ≠ "" then ["-i", p.identityFile] else [])
  ++ (if p.proxyJump ≠ "" then ["-J", p.proxyJump] else [])
  ++ sshForwardOpts "-L" p.localForwards
  ++ sshForwardOpts "-R" p.remoteForwards
  ++ sshForwardOpts "-D" p.dynamicForwards
  ++ p.setEnv.flatMap (fun env => if env ≠ "" then ["-o", "SetEnv=" ++ env] else [])
  ++ (if password ≠ "" ∧ p.identityFile = "" then passwordAuthOpts else [])
  ++ p.extraArgs
  ++ (if p.remoteCommand ≠ "" ∨ p.remoteDir ≠ "" then ["-t"] else [])
  ++ [p.host]
  ++ (if buildRemoteCommand p ≠ "" then [buildRemoteCommand p] else [])

/-- C8: remote-command synthesis. The built string is the quoted cd
clause (only when remoteDir is set) joined with a logical AND to the
explicit remote command when one is set, or to an interactive login shell
when only remoteDir is set, and empty when neither is set — together with
the spec's two concrete scenarios C and D. -/
theorem c8_remote_command_synthesis :
    (∀ p : Profile,
      buildRemoteCommand p =
        if p.remoteDir ≠ "" then
          (if p.remoteCommand ≠ "" then
            "cd " ++ shellQuote p.remoteDir ++ " && " ++ p.remoteCommand
          else "cd " ++ shellQuote p.remoteDir ++ " && exec $SHELL -l")
        else (if p.remoteCommand ≠ "" then p.remoteCommand else ""))
    ∧ buildRemoteCommand { remoteDir := "/path/with spaces" } =
        "cd '/path/with spaces' && exec $SHELL -l"
    ∧ buildRemoteCommand { remoteDir := "/app", remoteCommand := "make run" } =
        "cd '/app' && make run" := by
  refine ⟨?_, by decide, by decide⟩
  intro p
  by_cases h1 : p.remoteDir = "" <;> by_cases h2 : p.remoteCommand = "" <;>
    simp [buildRemoteCommand, strJoin, h1, h2, String.append_assoc]

/-- C10: when a non-empty secret is stored and no identity file is set,
the synthesized ssh argument vector contains the four options
PreferredAuthentications=password, PubkeyAuthentication=no,
ChallengeResponseAuthentication=no and ConnectTimeout=10, inserted after
the pre-block and before the host (which sits in `sshArgsPost`),
regardless of the use-agent flag (which `sshArgs` never consults); when
the secret is empty or an identity file is set, the vector is exactly the
same arguments without that block. -/
theorem c10_password_auth_options (p : Profile) (password : String) :
    (password ≠ "" → p.identityFile = "" →
      sshArgs p password = sshArgsPre p ++ passwordAuthOpts ++ sshArgsPost p)
    ∧ ((password = "" ∨ p.identityFile ≠ "") →
      sshArgs p password = sshArgsPre p ++ sshArgsPost p) := by
  constructor
  · intro h1 h2
    simp [sshArgs, sshArgsPre, sshArgsPost, h1, h2, List.append_assoc]
  · intro h
    rcases h with h | h
    · simp [sshArgs, sshArgsPre, sshArgsPost, h, List.append_assoc]
    · simp [sshArgs, sshArgsPre, sshArgsPost, h, List.append_assoc]

/-- Concrete profile for the C10 witness: a bare host with no identity
file. -/
def pwProfile : Profile := { name := "w", host := "h" }

/-- Witness for C10: with a stored secret the password-auth block is
inserted; with an empty secret it is not. -/
theorem c10_password_auth_options_witness :
    sshArgs pwProfile "s3cret" = sshArgsPre pwProfile ++ passwordAuthOpts ++ sshArgsPost pwProfile
    ∧ sshArgs pwProfile "" = sshArgsPre pwProfile ++ sshArgsPost pwProfile :=
  ⟨(c10_password_auth_options pwProfile "s3cret").1 (by decide) rfl,
    (c10_password_auth_options pwProfile "").2 (Or.inl rfl)⟩

/-! ### C5: the mosh connector's composite --ssh option (mosh.go) -/

/-- The ssh option string `moshConnector.Exec` accumulates
(mosh.go:19-29): port, identity file and proxy jump are concatenated into
one space-separated string; the identity-file path and proxy-jump target
are embedded verbatim, without `shellQuote`. -/
def moshSshOptionString (p : Profile) : String :=
  (if p.port > 0 ∧ p.port ≠ 22 then " -p " ++ toString p.port else "")
  ++ (if p.identityFile ≠ "" then " -i " ++ p.identityFile else "")
  ++ (if p.proxyJump ≠ "" then " -J " ++ p.proxyJump else "")

/-- The argument vector `moshConnector.Exec` hands to the `mosh` binary
(mosh.go:16-52). -/
def moshArgs (p : Profile) : List String :=
  (if moshSshOptionString p ≠ "" then ["--ssh=ssh" ++ moshSshOptionString p] else [])
  ++ (if p.moshServer ≠ "" then ["--server=" ++ p.moshServer] else [])
  ++ p.extraArgs
  ++ [if p.username ≠ "" then p.username ++ "@" ++ p.host else p.host]
  ++ (if p.remoteCommand ≠ "" then ["--", p.remoteCommand] else [])

/-- A profile whose identity-file path contains a space: the C5 failing
input. -/
def moshBugProfile : Profile := { name := "m", host := "h", identityFile := "/home/u/my key" }

/-- C5 evaluated at the failing input: the mosh connector embeds the
identity-file path into its single `--ssh=ssh ...` option string without
`shellQuote`, so the embedded option string splits into four words — the
path breaks apart at the space — whereas the quoting the claim describes
would keep the path one word (third conjunct). The proxy-jump target is
embedded by the same unquoted concatenation (mosh.go:27-29). -/
theorem c5_mosh_embeds_identity_unquoted :
    moshArgs moshBugProfile = ["--ssh=ssh -i /home/u/my key", "h"]
    ∧ parseWords "ssh -i /home/u/my key" = some ["ssh", "-i", "/home/u/my", "key"]
    ∧ parseWords ("ssh -i " ++ shellQuote "/home/u/my key") =
        some ["ssh", "-i", "/home/u/my key"] := by
  refine ⟨by decide, by decide, by decide⟩

/-! ### C3: credential backend selection (keyring_store.go:44-120) -/

/-- The backend kinds `getBackend` can resolve to. -/
inductive BackendKind where
  | onepassword
  | keyring
  | file
  deriving DecidableEq, Repr

/-- The error cases of `getBackend`, one per `fmt.Errorf` site
(keyring_store.go:72, 81, 92, 115). -/
inductive BackendError where
  | onePasswordUnavailable
  | keyringAndFileFailed
  | fileFailed
  | allFailed
  deriving DecidableEq, Repr

/-- The process state and probe outcomes `getBackend` consults: the
cached instance, the `VEESSH_CREDENTIALS_BACKEND` environment variable,
the persisted `defaultBackend` config value (with its load success), the
prior value of the package-level `backendType` variable, and the three
availability probes. -/
structure BackendWorld where
  cached : Option BackendKind
  envBackend : String
  cfgLoadOk : Bool
  cfgDefaultBackend : String
  backendType0 : String
  opAvailable : Bool
  keyringOpens : Bool
  fileOk : Bool
  deriving DecidableEq, Repr

/-- The backend type after the override step (keyring_store.go:49-62):
environment variable first, then the persisted config default, else the
prior `backendType` (initially auto). -/
def effectiveBackendType (w : BackendWorld) : String :=
  if w.envBackend ≠ "" then w.envBackend
  else if w.cfgLoadOk ∧ w.cfgDefaultBackend ≠ "" then w.cfgDefaultBackend
  else w.backendType0

/-- `getBackend` (keyring_store.go:44-120): return the cached backend if
set; otherwise resolve the effective backend type. A forced 1password
that is unavailable errors; a forced keyring that fails to open falls
back to the file backend and errors only if that also fails; a forced
file errors when the file backend cannot initialize; anything else runs
the auto chain 1password, then keyring, then file. -/
def getBackend (w : BackendWorld) : Except BackendError BackendKind :=
  match w.cached with
  | some b => .ok b
  | none =>
    match effectiveBackendType w with
    | "1password" =>
        if w.opAvailable then .ok .onepassword else .error .onePasswordUnavailable
    | "keyring" =>
        if w.keyringOpens then .ok .keyring
        else if w.fileOk then .ok .file else .error .keyringAndFileFailed
    | "file" =>
        if w.fileOk then .ok .file else .error .fileFailed
    | _ =>
        if w.opAvailable then .ok .onepassword
        else if w.keyringOpens then .ok .keyring
        else if w.fileOk then .ok .file
        else .error .allFailed

/-- A world in which the environment variable forces the keyring backend,
the keyring cannot be opened, and the file backend works. -/
def forcedKeyringWorld : BackendWorld :=
  { cached := none, envBackend := "keyring", cfgLoadOk := true,
    cfgDefaultBackend := "", backendType0 := "auto", opAvailable := false,
    keyringOpens := false, fileOk := true }

/-- C3 counterexample: with the keyring backend forced by the
highest-priority override and unavailable, `getBackend` does not fail —
it silently falls back to the file backend (keyring_store.go:76-85),
contradicting the claim that every forced-but-unavailable backend in
the closed set errors without fallback. -/
theorem c3_counterexample :
    effectiveBackendType forcedKeyringWorld = "keyring"
    ∧ forcedKeyringWorld.keyringOpens = false
    ∧ getBackend forcedKeyringWorld = .ok .file :=
  ⟨rfl, rfl, rfl⟩

/-- C3 amended: a forced 1password backend that is unavailable errors
without fallback, and a forced file backend whose initialization fails
errors; but a forced keyring backend that cannot open falls back to the
file backend, erroring only when the file backend also fails. -/
theorem c3_amended_forced_backend (w : BackendWorld) (hcache : w.cached = none) :
    (effectiveBackendType w = "1password" → w.opAvailable = false →
      getBackend w = .error .onePasswordUnavailable)
    ∧ (effectiveBackendType w = "file" → w.fileOk = false →
      getBackend w = .error .fileFailed)
    ∧ (effectiveBackendType w = "keyring" → w.keyringOpens = false →
      getBackend w = if w.fileOk then .ok .file else .error .keyringAndFileFailed) := by
  refine ⟨?_, ?_, ?_⟩ <;> intro h1 h2 <;> simp [getBackend, hcache, h1, h2]

/-- A world in which the environment variable forces the 1Password
backend and its CLI is unavailable, with every other backend healthy. -/
def forcedOnePasswordWorld : BackendWorld :=
  { cached := none, envBackend := "1password", cfgLoadOk := true,
    cfgDefaultBackend := "", backendType0 := "auto", opAvailable := false,
    keyringOpens := true, fileOk := true }

/-- Witness for the amended C3: forcing an unavailable 1password errors
without falling back to the healthy keyring or file backends. -/
theorem c3_amended_forced_backend_witness :
    getBackend forcedOnePasswordWorld = .error .onePasswordUnavailable :=
  (c3_amended_forced_backend forcedOnePasswordWorld rfl).1 (by decide) rfl

/-! ### C4: the connector registry (connector.go:21-35) -/

/-- Modelled from the spec: the telnet connector registration. The telnet
connector's source file is missing from src/ (only the registry test and
the protocol constant refer to it); the spec's registry contract requires
a connector registered under "telnet" at process startup, named after its
protocol like every other connector. -/
def telnetRegistration : String × String := ("telnet", "telnet")

/-- The registry contents after all startup `init()` registrations
(ssh.go:261-263 and the sftp, ssm, mosh and gcloud connector files), each
connector represented by its `Name()` string, plus the spec-modelled
telnet registration. Go map insertion order is irrelevant: the keys are
distinct. -/
def registeredConnectors : List (String × String) :=
  [("ssh", "ssh"), ("sftp", "sftp"), ("ssm", "ssm"), ("mosh", "mosh"),
   ("gcloud", "gcloud"), telnetRegistration]

/-- `connectors.Get` (connector.go:27-35): the registered connector, or
a not-found error naming the protocol. -/
def connectorsGet (proto : String) : Except String String :=
  match lookupAssoc registeredConnectors proto with
  | some conn => .ok conn
  | none => .error ("no connector for protocol " ++ proto)

/-- The closed protocol set (config.go:18-25). -/
def knownProtocols : List String := ["ssh", "sftp", "telnet", "mosh", "ssm", "gcloud"]

/-- C4: after startup registration, lookup succeeds exactly on the closed
protocol set: every known protocol resolves to its connector, and any
protocol outside the set yields the not-found error. -/
theorem c4_registry_closed_set (proto : String) :
    (proto ∈ knownProtocols → connectorsGet proto = .ok proto)
    ∧ (proto ∉ knownProtocols →
      connectorsGet proto = .error ("no connector for protocol " ++ proto)) := by
  constructor
  · intro h
    fin_cases h <;> rfl
  · intro h
    have hs1 : ¬("ssh" = proto) := fun e => h (e ▸ (by decide : "ssh" ∈ knownProtocols))
    have hs2 : ¬("sftp" = proto) := fun e => h (e ▸ (by decide : "sftp" ∈ knownProtocols))
    have hs3 : ¬("ssm" = proto) := fun e => h (e ▸ (by decide : "ssm" ∈ knownProtocols))
    have hs4 : ¬("mosh" = proto) := fun e => h (e ▸ (by decide : "mosh" ∈ knownProtocols))
    have hs5 : ¬("gcloud" = proto) := fun e => h (e ▸ (by decide : "gcloud" ∈ knownProtocols))
    have hs6 : ¬("telnet" = proto) := fun e => h (e ▸ (by decide : "telnet" ∈ knownProtocols))
    simp [connectorsGet, lookupAssoc, registeredConnectors, telnetRegistration,
      hs1, hs2, hs3, hs4, hs5, hs6]

/-- Witness for C4: `ssh` resolves to its connector, an unknown protocol
yields the not-found error. -/
theorem c4_registry_closed_set_witness :
    connectorsGet "ssh" = .ok "ssh"
    ∧ connectorsGet "http" = .error ("no connector for protocol " ++ "http") :=
  ⟨(c4_registry_closed_set "ssh").1 (by decide),
    (c4_registry_closed_set "http").2 (by decide)⟩

/-! ### C9: secret absence is a successful empty result -/

/-- Outcome of the keyring `Get` call (the 99designs/keyring library):
found data, the distinguished `ErrKeyNotFound`, or another error. -/
inductive KeyringGetResult where
  | found (data : String)
  | keyNotFound
  | other (err : String)
  deriving DecidableEq, Repr

/-- `KeyringBackend.GetPassword` (keyring_store.go:145-159) over the
outcomes of opening the ring and of the `Get` call: `ErrKeyNotFound`
becomes an empty password with no error; an open failure or any other
`Get` failure is an error. -/
def keyringGetPassword (openResult : Except String Unit)
    (res : KeyringGetResult) : Except String String :=
  match openResult with
  | .error e => .error e
  | .ok _ =>
    match res with
    | .found data => .ok data
    | .keyNotFound => .ok ""
    | .other e => .error e

/-- `FileBackend.GetPassword` (file_backend.go:183-199) over the outcome
of loading and decrypting the password file (a map from profile name to
password): an absent entry is an empty password with no error; a load or
decrypt failure is an error; an empty profile name is rejected. -/
def fileGetPassword (loadResult : Except String (List (String × String)))
    (profileName : String) : Except String String :=
  if profileName = "" then .error "profile name required"
  else
    match loadResult with
    | .error e => .error e
    | .ok passwords =>
      match lookupAssoc passwords profileName with
      | none => .ok ""
      | some password => .ok password

/-- `strings.Contains`: whether the needle occurs as a contiguous
substring of the haystack (on character lists). -/
def containsSub : List Char → List Char → Bool
  | [], needle => needle.isEmpty
  | c :: rest, needle => needle.isPrefixOf (c :: rest) || containsSub rest needle

/-- Outcome of running `op item get`: the captured stdout, with success
or failure. -/
inductive OpRunResult where
  | ok (stdout : String)
  | err (stdout : String)
  deriving DecidableEq, Repr

/-- `OnePasswordBackend.GetPassword` (onepassword.go:85-115) over the op
CLI outcome: a failing `op item get` whose captured output carries one of
the three not-found markers becomes an empty password with no error; any
other failure is an error. The success path's output post-processing
(JSON field extraction with a plain-text fallback, then TrimSpace) is
kept as the trimmed output, since no claim depends on it. -/
def opGetPassword (profileName : String) (run : OpRunResult) : Except String String :=
  if profileName = "" then .error "profile name required"
  else
    match run with
    | .err out =>
      if containsSub out.data ("isn't in".data) || containsSub out.data ("not found".data)
          || containsSub out.data ("No item found".data) then .ok ""
      else .error ("1password CLI error, output: " ++ out)
    | .ok out => .ok out.trim

/-- C9: for every backend kind, `GetPassword` for a (non-empty) profile
name with no stored secret returns the empty string with no error: the
file backend on a loaded map without the name, the keyring backend on
`ErrKeyNotFound`, and the 1Password backend on a failed `op item get`
reporting a not-found marker. -/
theorem c9_absent_secret_is_empty_success
    (passwords : List (String × String)) (profileName : String) (out : String) :
    (profileName ≠ "" → lookupAssoc passwords profileName = none →
      fileGetPassword (.ok passwords) profileName = .ok "")
    ∧ keyringGetPassword (.ok ()) .keyNotFound = .ok ""
    ∧ (profileName ≠ "" → containsSub out.data ("No item found".data) = true →
      opGetPassword profileName (.err out) = .ok "") := by
  refine ⟨?_, rfl, ?_⟩
  · intro h1 h2
    simp [fileGetPassword, h1, h2]
  · intro h1 h2
    simp [opGetPassword, h1, h2]

/-- Witness for C9 at concrete inputs: a password map without the
queried name, a keyring key-not-found, and an op CLI not-found output. -/
theorem c9_absent_secret_is_empty_success_witness :
    fileGetPassword (.ok [("other", "pw")]) "mybox" = .ok ""
    ∧ keyringGetPassword (.ok ()) .keyNotFound = .ok ""
    ∧ opGetPassword "mybox" (.err "ERROR: No item found in default vault") = .ok "" :=
  ⟨(c9_absent_secret_is_empty_success [("other", "pw")] "mybox"
      "ERROR: No item found in default vault").1 (by decide) (by decide),
    (c9_absent_secret_is_empty_success [("other", "pw")] "mybox"
      "ERROR: No item found in default vault").2.1,
    (c9_absent_secret_is_empty_success [("other", "pw")] "mybox"
      "ERROR: No item found in default vault").2.2 (by decide) (by decide)⟩

end Veessh
